import Mathlib

/-!
Verification of the go-sane scanner library (package sane) against its
natural-language specification.  The Lean definitions below are shallow
embeddings of the Go source: `Frame`, `Frame.At`, `readFrame` come from
frame.go, `Image`, `Image.At`, `readImage` from image.go, and the option
marshaling layer (`writeArray`, `readArray`, `fillOpt`, `Conn.Options`,
`Conn.SetOption`) from sane.go.  Go machine integers are modelled as
Nat/Int; `data` fields model Go []byte, so entries are byte values.
-/

namespace Sane

/-- Frame format tags, from the Format constants in sane.go
(FrameGray, FrameRgb, FrameRed, FrameGreen, FrameBlue). -/
inductive Format where
  | gray
  | rgb
  | red
  | green
  | blue
deriving DecidableEq, Repr

/-- Error values produced by the library: the named error constants and
the fmt.Errorf messages of sane.go, frame.go and image.go. -/
inductive Err where
  | unsupported | cancelled | busy | invalid | jammed | empty
  | coverOpen | ioErr | noMem | denied
  | unknownCode (n : Nat)
  | noOption (name : String)
  | expects (name : String) (what : String)
  | unexpectedFrame (f : Format)
  | unsupportedDepth (d : Nat)
deriving DecidableEq, Repr

/-- Frame, from frame.go: one completed plane or interleaved triple of
sample data.  `data` models the Go []byte buffer. -/
structure Frame where
  format : Format
  width : Nat
  height : Nat
  channels : Nat
  depth : Nat
  isLast : Bool
  bytesPerLine : Nat
  data : List Nat
deriving DecidableEq, Repr

/-- Frame.At from frame.go: the sample at coordinates (x,y) for channel ch.
Depth 1: bit x%8 of byte bytesPerLine*y + channels*(x/8) + ch, inverted for
gray frames.  Depth 8: the byte at bytesPerLine*y + channels*x + ch.
Depth 16: two little-endian bytes at bytesPerLine*y + 2*(channels*x+ch).
Any other depth returns 0.  Go indexes f.data directly (panicking out of
bounds); here out-of-range indices read as 0 via getD. -/
def Frame.At (f : Frame) (x y ch : Nat) : Nat :=
  match f.depth with
  | 1 =>
    let i := f.bytesPerLine * y + f.channels * (x / 8) + ch
    let s := (f.data.getD i 0 >>> (x % 8)) &&& 1
    if f.format = .gray then s ^^^ 1 else s
  | 8 => f.data.getD (f.bytesPerLine * y + f.channels * x + ch) 0
  | 16 =>
    let i := f.bytesPerLine * y + 2 * (f.channels * x + ch)
    (f.data.getD (i + 1) 0) <<< 8 + f.data.getD i 0
  | _ => 0

/-- The raw-buffer indices Frame.At reads for a given coordinate, straight
from the index expressions in frame.go. -/
def Frame.atIndices (f : Frame) (x y ch : Nat) : List Nat :=
  match f.depth with
  | 1 => [f.bytesPerLine * y + f.channels * (x / 8) + ch]
  | 8 => [f.bytesPerLine * y + f.channels * x + ch]
  | 16 =>
    let i := f.bytesPerLine * y + 2 * (f.channels * x + ch)
    [i, i + 1]
  | _ => []

/-- Bytes occupied by one sample at a given bit depth (2 at depth 16,
1 at depths 1 and 8); used to phrase the stride precondition. -/
def bytesPerSample (d : Nat) : Nat := if d = 16 then 2 else 1

/-- Params, from sane.go: geometry the device advertises for the next
frame.  `lines` is an Int because the device may advertise a non-positive
"unknown" line count. -/
structure Params where
  format : Format
  isLast : Bool
  bytesPerLine : Nat
  pixelsPerLine : Nat
  lines : Int
  depth : Nat
deriving DecidableEq, Repr

/-- ReadFrame from frame.go, as a function of the advertised Params and
the byte stream actually received for the frame: rejects unsupported
depths, and builds the Frame with Height = len(data) / BytesPerLine
(the comment in the source notes p.Lines is unreliable). -/
def readFrame (p : Params) (data : List Nat) : Except Err Frame :=
  if p.depth ≠ 1 ∧ p.depth ≠ 8 ∧ p.depth ≠ 16 then
    .error (.unsupportedDepth p.depth)
  else
    .ok { format := p.format
          width := p.pixelsPerLine
          height := data.length / p.bytesPerLine
          channels := if p.format = .rgb then 3 else 1
          depth := p.depth
          isLast := p.isLast
          bytesPerLine := p.bytesPerLine
          data := data }

/-- The three role slots of image.go's Image (fs [3]*Frame); none models
a nil pointer. -/
structure Slots where
  f0 : Option Frame
  f1 : Option Frame
  f2 : Option Frame
deriving DecidableEq, Repr

/-- One iteration of the switch in image.go's ReadImage loop: classify
frame f (arriving as the i-th frame) into a slot, or fail.  The returned
Bool is the `done` flag (single-frame image). -/
def assembleStep (i : Nat) (s : Slots) (f : Frame) : Except Err (Slots × Bool) :=
  if i = 0 ∧ (f.format = .gray ∨ f.format = .rgb) then
    .ok ({ s with f0 := some f }, true)
  else if f.format = .red ∧ s.f0 = none then
    .ok ({ s with f0 := some f }, false)
  else if f.format = .green ∧ s.f1 = none then
    .ok ({ s with f1 := some f }, false)
  else if f.format = .blue ∧ s.f2 = none then
    .ok ({ s with f2 := some f }, false)
  else
    .error (.unexpectedFrame f.format)

/-- The loop `for i := 0; !done && i < 3; i++` of image.go's ReadImage.
`fuel` is the number of remaining iterations (3 - i); `stream` is the
sequence of frames the device will deliver, consumed once per ReadFrame
call.  An exhausted stream models a ReadFrame that fails at the device.
Returns the filled slots and the frames left unread. -/
def readImageAux : Nat → Nat → Slots → List Frame → Except Err (Slots × List Frame)
  | 0, _, s, stream => .ok (s, stream)
  | _fuel + 1, _, _, [] => .error .ioErr
  | fuel + 1, i, s, f :: rest =>
    match assembleStep i s f with
    | .error e => .error e
    | .ok (s', done) =>
      if done then .ok (s', rest) else readImageAux fuel (i + 1) s' rest

/-- Image from image.go: one to three frames, multi-frame in RGB order. -/
structure Image where
  f0 : Option Frame
  f1 : Option Frame
  f2 : Option Frame
deriving DecidableEq, Repr

/-- ReadImage from image.go (after its initial Start succeeded): run up
to three ReadFrame cycles, classifying each frame.  Returns the Image and
the frames left unconsumed on the stream. -/
def readImage (stream : List Frame) : Except Err (Image × List Frame) :=
  match readImageAux 3 0 ⟨none, none, none⟩ stream with
  | .error e => .error e
  | .ok (s, rest) => .ok (⟨s.f0, s.f1, s.f2⟩, rest)

/-- The Image readImage produces on a stream, with an all-empty image on
error; used to state pixel-level equalities. -/
def imageOf (stream : List Frame) : Image :=
  match readImage stream with
  | .ok (m, _) => m
  | .error _ => ⟨none, none, none⟩

/-- Pixel colors, from Go's color.RGBA / color.Gray as used in image.go;
components carry the raw sample values returned by Frame.At. -/
inductive Color where
  | rgba (r g b a : Nat)
  | gray (y : Nat)
deriving DecidableEq, Repr

/-- Stand-in frame for a nil fs pointer.  Go would panic dereferencing
nil; every Image produced by a successful ReadImage has the slots its
At implementation dereferences filled, so theorems never reach this. -/
def nilFrame : Frame := ⟨.gray, 0, 0, 0, 0, false, 0, []⟩

/-- Image.At from image.go: out-of-bounds coordinates yield the zero
color.RGBA{}; otherwise the color is composed from the frames according
to the first frame's format, channels in R,G,B order, opaque alpha. -/
def Image.At (m : Image) (x y : Int) : Color :=
  let fr0 := m.f0.getD nilFrame
  if x < 0 ∨ (fr0.width : Int) ≤ x ∨ y < 0 ∨ (fr0.height : Int) ≤ y then
    .rgba 0 0 0 0
  else
    match fr0.format with
    | .red | .green | .blue =>
      .rgba (fr0.At x.toNat y.toNat 0)
        ((m.f1.getD nilFrame).At x.toNat y.toNat 0)
        ((m.f2.getD nilFrame).At x.toNat y.toNat 0) 255
    | .rgb =>
      .rgba (fr0.At x.toNat y.toNat 0) (fr0.At x.toNat y.toNat 1)
        (fr0.At x.toNat y.toNat 2) 255
    | .gray => .gray (fr0.At x.toNat y.toNat 0)

/-! ### Device-action traces (start / cancel ordering) -/

/-- Device actions relevant to acquisition-cycle cleanup: sane_start and
sane_cancel calls issued on the connection. -/
inductive DevAct where
  | start
  | cancel
deriving DecidableEq, Repr

/-- The ReadImage loop with its device-action trace.  Each iteration is
one ReadFrame call: frame.go's ReadFrame always issues c.Start() first
and never issues a cancel; the stream element is its outcome (a frame,
or a failure of start/params/read), with an exhausted stream modelling a
device failure. -/
def readImageTrAux : Nat → Nat → Slots → List (Except Err Frame) →
    List DevAct × Except Err Slots × List (Except Err Frame)
  | 0, _, s, stream => ([], .ok s, stream)
  | _fuel + 1, _, _, [] => ([.start], .error .ioErr, [])
  | fuel + 1, i, s, rf :: rest =>
    match rf with
    | .error e => ([.start], .error e, rest)
    | .ok f =>
      match assembleStep i s f with
      | .error e => ([.start], .error e, rest)
      | .ok (s', done) =>
        if done then ([.start], .ok s', rest)
        else
          let r := readImageTrAux fuel (i + 1) s' rest
          (.start :: r.1, r.2.1, r.2.2)

/-- ReadImage from image.go with its device-action trace: it first issues
its own c.Start() (a failed start returns at once, before the deferred
cancel is registered); on success the deferred c.Cancel() runs at return,
on every loop outcome. -/
def readImageTr (startFail : Option Err) (stream : List (Except Err Frame)) :
    List DevAct × Except Err Image :=
  match startFail with
  | some e => ([.start], .error e)
  | none =>
    let r := readImageTrAux 3 0 ⟨none, none, none⟩ stream
    (.start :: (r.1 ++ [.cancel]),
     match r.2.1 with
     | .error e => .error e
     | .ok s => .ok ⟨s.f0, s.f1, s.f2⟩)

/-- The separation property claimed of traces: between any two start
actions there is an intervening cancel. -/
def cancelBetweenStarts (t : List DevAct) : Prop :=
  ∀ i j : Nat, i < j → t.get? i = some .start → t.get? j = some .start →
    ∃ k, i < k ∧ k < j ∧ t.get? k = some .cancel

/-! ### Value codec (sane.go) -/

/-- The machine word scale of fixed-point options:
1 << SANE_FIXED_SCALE_SHIFT with shift 16. -/
def fixedScale : Nat := 65536

def boolFromSane (w : Int) : Bool := w ≠ 0

def boolToSane (b : Bool) : Int := if b then 1 else 0

def intFromSane (w : Int) : Int := w

def intToSane (i : Int) : Int := i

/-- Truncation toward zero, the behavior of Go's float64-to-integer
conversion used by floatToSane. -/
def truncQ (q : ℚ) : Int := if q < 0 then ⌈q⌉ else ⌊q⌋

/-- floatFromSane: raw word over the fixed-point scale.  Go float64
represents every int32 / 2^16 exactly, so ℚ is a faithful model on the
values that occur. -/
def floatFromSane (w : Int) : ℚ := (w : ℚ) / (fixedScale : ℚ)

def floatToSane (q : ℚ) : Int := truncQ (q * (fixedScale : ℚ))

/-- The three reflect types sane.go dispatches on (boolType, intType,
floatType). -/
inductive BaseKind where
  | bool
  | int
  | float
deriving DecidableEq, Repr

/-- Typed values crossing the option API, modelling the Go interface{}
arguments: the four base kinds, numeric slices, and the Auto sentinel. -/
inductive Value where
  | b (x : Bool)
  | i (x : Int)
  | f (x : ℚ)
  | s (x : String)
  | ba (x : List Bool)
  | ia (x : List Int)
  | fa (x : List ℚ)
  | auto
deriving DecidableEq, Repr

/-- readArrayAt from sane.go: decode the i-th word as the given kind. -/
def readArrayAt (ws : List Int) (i : Nat) (t : BaseKind) : Value :=
  match t with
  | .bool => .b (boolFromSane (ws.getD i 0))
  | .int => .i (intFromSane (ws.getD i 0))
  | .float => .f (floatFromSane (ws.getD i 0))

/-- readArray from sane.go: a scalar for n = 1, else a slice of n decoded
elements. -/
def readArray (ws : List Int) (t : BaseKind) (n : Nat) : Value :=
  if n = 1 then readArrayAt ws 0 t
  else
    match t with
    | .bool => .ba ((List.range n).map fun i => boolFromSane (ws.getD i 0))
    | .int => .ia ((List.range n).map fun i => intFromSane (ws.getD i 0))
    | .float => .fa ((List.range n).map fun i => floatFromSane (ws.getD i 0))

/-- writeArray from sane.go: for n = 1 the value must be a scalar of
kind t; otherwise it must be a slice of kind t with length exactly n.
Returns the encoded words, or none on the type/length mismatches the
source rejects. -/
def writeArray (t : BaseKind) (n : Nat) (v : Value) : Option (List Int) :=
  if n = 1 then
    match t, v with
    | .bool, .b x => some [boolToSane x]
    | .int, .i x => some [intToSane x]
    | .float, .f x => some [floatToSane x]
    | _, _ => none
  else
    match t, v with
    | .bool, .ba xs => if xs.length = n then some (xs.map boolToSane) else none
    | .int, .ia xs => if xs.length = n then some (xs.map intToSane) else none
    | .float, .fa xs => if xs.length = n then some (xs.map floatToSane) else none
    | _, _ => none

/-- strFromSane at the byte level: the bytes up to the first NUL. -/
def strFromSaneBytes (raw : List Nat) : List Nat :=
  raw.takeWhile (· ≠ 0)

/-- The string branch of fillOpt: copy the string into a buffer of the
option's declared byte size (Go copy semantics: min of the lengths, rest
zero) and force the final byte to NUL. -/
def encodeString (size : Nat) (s : List Nat) : List Nat :=
  let b := s.take size ++ List.replicate (size - (s.take size).length) 0
  b.set (size - 1) 0

/-! ### Option registry (sane.go) -/

/-- Option data types, from the Type constants of sane.go
(TypeBool, TypeInt, TypeFloat i.e. SANE fixed, TypeString, TypeButton,
and the internal group marker). -/
inductive OptionType where
  | tBool
  | tInt
  | tFixed
  | tString
  | tButton
  | tGroup
deriving DecidableEq, Repr

/-- SANE status codes, from mkError's cases in sane.go. -/
inductive Status where
  | good | unsupported | cancelled | deviceBusy | inval | jammed
  | noDocs | coverOpen | ioError | noMem | accessDenied
  | other (n : Nat)
deriving DecidableEq, Repr

/-- mkError from sane.go: map a non-good status to an Error value. -/
def mkError (s : Status) : Err :=
  match s with
  | .unsupported => .unsupported
  | .cancelled => .cancelled
  | .deviceBusy => .busy
  | .inval => .invalid
  | .jammed => .jammed
  | .noDocs => .empty
  | .coverOpen => .coverOpen
  | .ioError => .ioErr
  | .noMem => .noMem
  | .accessDenied => .denied
  | .good => .unknownCode 0
  | .other n => .unknownCode n

/-- sizeof(SANE_Word): 4 bytes. -/
def wordSize : Nat := 4

/-- The fields of a device option descriptor that parseOpt consumes
(constraints and capability bits are irrelevant to the claims). -/
structure Descr where
  name : String
  title : String
  dtype : OptionType
  size : Nat
deriving DecidableEq, Repr

/-- Option, from sane.go, restricted to the fields the claims exercise. -/
structure SOption where
  name : String
  group : String
  otype : OptionType
  length : Nat
  size : Nat
  index : Nat
deriving DecidableEq, Repr

/-- parseOpt from sane.go: Length is size/wordSize for numeric types and
1 otherwise; group and index are filled in by the enumeration loop. -/
def parseOpt (d : Descr) : SOption :=
  { name := d.name
    group := ""
    otype := d.dtype
    length := if d.dtype = .tInt ∨ d.dtype = .tFixed then d.size / wordSize else 1
    size := d.size
    index := 0 }

/-- The descriptor-enumeration loop of Options(): 1-based indices, group
markers update the current group label and are not emitted. -/
def fetchOptionsAux : Nat → String → List Descr → List SOption
  | _, _, [] => []
  | i, g, d :: rest =>
    let o := parseOpt d
    if o.otype = .tGroup then fetchOptionsAux (i + 1) d.title rest
    else { o with group := g, index := i } :: fetchOptionsAux (i + 1) g rest

def fetchOptions (ds : List Descr) : List SOption :=
  fetchOptionsAux 1 "" ds

/-- Encoded option payloads handed to the device: machine words for the
numeric kinds, raw bytes for strings and valueless kinds. -/
inductive RawBuf where
  | words (ws : List Int)
  | bytes (bs : List Nat)
deriving DecidableEq, Repr

/-- The device transport behind a connection: the option descriptors
sane_get_option_descriptor serves (one per index, then absent), and the
status and info word sane_control_option returns for set-value and
set-auto actions. -/
structure Device where
  descrs : List Descr
  setVal : Nat → RawBuf → Status × Nat
  setAuto : Nat → Status × Nat

/-- Transport calls, for observing which device operations an API call
issues. -/
inductive TCall where
  | getDescriptor (i : Nat)
  | controlSet (i : Nat)
  | controlAuto (i : Nat)
deriving DecidableEq, Repr

/-- The descriptor queries a full enumeration issues: indices 1 through
n+1, the last returning absent and ending the loop. -/
def descrTrace (ds : List Descr) : List TCall :=
  (List.range (ds.length + 1)).map fun k => .getDescriptor (k + 1)

/-- Conn from sane.go: the device handle and the cached option list
(none models the nil slice before the first fetch or after
invalidation). -/
structure Conn where
  dev : Device
  options : Option (List SOption)

/-- Options() from sane.go: serve the cache when present, otherwise
enumerate descriptors from the device and cache the result.  Returns the
option list, the updated connection, and the transport calls issued. -/
def Conn.Options (c : Conn) : List SOption × Conn × List TCall :=
  match c.options with
  | some opts => (opts, c, [])
  | none =>
    let opts := fetchOptions c.dev.descrs
    (opts, { c with options := some opts }, descrTrace c.dev.descrs)

/-- UTF-8 bytes of a Go string, as copy(b, s) sees them. -/
def strBytes (s : String) : List Nat :=
  s.toUTF8.toList.map (fun b => b.toNat)

/-- fillOpt from sane.go: encode a caller value against an option's
declared type and byte size; l = size/wordSize is the element count
writeArray enforces.  Mismatches produce the "option %s expects ..."
errors.  The source's switch has no TypeButton case, so a button option
accepts any value and yields its zero-filled buffer. -/
def fillOpt (o : SOption) (v : Value) : Except Err RawBuf :=
  let l := o.size / wordSize
  let s := if l > 1 then "[]" else ""
  match o.otype with
  | .tBool =>
    match writeArray .bool l v with
    | some ws => .ok (.words ws)
    | none => .error (.expects o.name (s ++ "bool"))
  | .tInt =>
    match writeArray .int l v with
    | some ws => .ok (.words ws)
    | none => .error (.expects o.name (s ++ "int"))
  | .tFixed =>
    match writeArray .float l v with
    | some ws => .ok (.words ws)
    | none => .error (.expects o.name (s ++ "float64"))
  | .tString =>
    match v with
    | .s str => .ok (.bytes (encodeString o.size (strBytes str)))
    | _ => .error (.expects o.name "string")
  | _ => .ok (.bytes (List.replicate o.size 0))

/-- The linear name scan of GetOption/SetOption: first option with the
given name. -/
def findOpt : List SOption → String → Option SOption
  | [], _ => none
  | o :: rest, nm => if o.name = nm then some o else findOpt rest nm

/-- Info from sane.go: side effects reported by a set operation. -/
structure Info where
  inexact : Bool
  reloadOpts : Bool
  reloadParams : Bool
deriving DecidableEq, Repr

/-- The tail of SetOption after the control call: a non-good status maps
to an error and leaves the cache alone; on success the info bits are
decoded (SANE_INFO_INEXACT = 1, SANE_INFO_RELOAD_OPTIONS = 2,
SANE_INFO_RELOAD_PARAMS = 4) and the reload-options bit clears the
cached option list. -/
def finishSet (c : Conn) (tr : List TCall) (st : Status) (iw : Nat) :
    Except Err Info × Conn × List TCall :=
  if st = Status.good then
    (.ok { inexact := iw &&& 1 != 0
           reloadOpts := iw &&& 2 != 0
           reloadParams := iw &&& 4 != 0 },
     if iw &&& 2 != 0 then { c with options := none } else c,
     tr)
  else
    (.error (mkError st), c, tr)

/-- SetOption from sane.go: look the option up by name (through the
cache), encode the value (or take the auto path), issue the control
call, and decode the result.  Returns the outcome, the updated
connection, and the transport calls issued. -/
def Conn.SetOption (c : Conn) (name : String) (v : Value) :
    Except Err Info × Conn × List TCall :=
  let r := c.Options
  let c1 := r.2.1
  let tr := r.2.2
  match findOpt r.1 name with
  | none => (.error (.noOption name), c1, tr)
  | some o =>
    match v with
    | .auto =>
      finishSet c1 (tr ++ [.controlAuto o.index])
        (c1.dev.setAuto o.index).1 (c1.dev.setAuto o.index).2
    | _ =>
      match fillOpt o v with
      | .error e => (.error e, c1, tr)
      | .ok buf =>
        finishSet c1 (tr ++ [.controlSet o.index])
          (c1.dev.setVal o.index buf).1 (c1.dev.setVal o.index buf).2

/-- The claim's notion of a well-typed caller value for an option of one
of the four typed kinds, with the element count the codec enforces
(byte size over word size for the numeric kinds): a scalar of the base
kind when that count is 1, else a slice of the base kind of exactly that
length; any string for a string option. -/
def valueKindMatches (t : OptionType) (len : Nat) (v : Value) : Prop :=
  match t, v with
  | .tBool, .b _ => len = 1
  | .tBool, .ba xs => len ≠ 1 ∧ xs.length = len
  | .tInt, .i _ => len = 1
  | .tInt, .ia xs => len ≠ 1 ∧ xs.length = len
  | .tFixed, .f _ => len = 1
  | .tFixed, .fa xs => len ≠ 1 ∧ xs.length = len
  | .tString, .s _ => True
  | _, _ => False

/-- A type/length mismatch in the sense of the claim: a concrete
(non-auto) value supplied for an option of a typed kind that does not
match the option's declared type and length. -/
def mismatch (o : SOption) (v : Value) : Prop :=
  (o.otype = .tBool ∨ o.otype = .tInt ∨ o.otype = .tFixed ∨ o.otype = .tString) ∧
  v ≠ .auto ∧
  ¬ valueKindMatches o.otype (o.size / wordSize) v

/-! ## Theorems -/

/-- C2: For every completed frame, the frame's height equals
floor(bytes received / bytes-per-line advertised for that frame), and
the advertised line count has no influence at all on the result of
ReadFrame (it is only a preallocation hint in the source). -/
theorem readFrame_height_floor :
    (∀ (p : Params) (data : List Nat) (f : Frame),
        readFrame p data = .ok f → f.height = data.length / p.bytesPerLine) ∧
    (∀ (p : Params) (data : List Nat) (l : Int),
        readFrame { p with lines := l } data = readFrame p data) := by
  constructor
  · intro p data f h
    unfold readFrame at h
    split at h
    · exact absurd h (by simp)
    · cases h
      rfl
  · intro p data l
    rfl

/-- C2 witness: a concrete 8-bit frame with advertised line count -1
(unknown) and 7 bytes received over a stride of 2 has height 3. -/
theorem readFrame_height_floor_witness :
    (readFrame ⟨.gray, true, 2, 2, -1, 8⟩ [0, 1, 2, 3, 4, 5, 6]).map Frame.height =
      .ok 3 := by
  have h : readFrame ⟨.gray, true, 2, 2, -1, 8⟩ [0, 1, 2, 3, 4, 5, 6] =
      .ok ⟨.gray, 2, 3, 1, 8, true, 2, [0, 1, 2, 3, 4, 5, 6]⟩ := rfl
  rw [h]
  exact congrArg Except.ok
    (readFrame_height_floor.1 ⟨.gray, true, 2, 2, -1, 8⟩ [0, 1, 2, 3, 4, 5, 6] _ h)

/-- C4: if the first frame's format is grayscale or interleaved RGB, the
image is complete after that single frame, whatever the frame's isLast
flag says and whatever further frames the device could have delivered:
the whole rest of the stream is left unconsumed. -/
theorem readImage_single_frame_ends (f : Frame) (rest : List Frame)
    (h : f.format = .gray ∨ f.format = .rgb) :
    readImage (f :: rest) = .ok (⟨some f, none, none⟩, rest) := by
  rcases h with h | h <;>
    simp [readImage, readImageAux, assembleStep, h]

/-- C4 witness: a grayscale frame whose isLast flag is false still ends
the image, leaving the next frame unread. -/
theorem readImage_single_frame_ends_witness :
    readImage [⟨.gray, 1, 1, 1, 8, false, 1, [7]⟩, ⟨.red, 1, 1, 1, 8, true, 1, [9]⟩] =
      .ok (⟨some ⟨.gray, 1, 1, 1, 8, false, 1, [7]⟩, none, none⟩,
        [⟨.red, 1, 1, 1, 8, true, 1, [9]⟩]) :=
  readImage_single_frame_ends ⟨.gray, 1, 1, 1, 8, false, 1, [7]⟩
    [⟨.red, 1, 1, 1, 8, true, 1, [9]⟩] (Or.inl rfl)

/-- C1: a three-frame red/green/blue acquisition gives the same Image in
each of the six arrival orders: every permutation assembles to the slots
(red, green, blue), so every pixel of the image equals the pixel of the
canonical R,G,B arrival order. -/
theorem readImage_perm_invariant (r g b : Frame)
    (hr : r.format = .red) (hg : g.format = .green) (hb : b.format = .blue) :
    ∀ l ∈ [[r, g, b], [r, b, g], [g, r, b], [g, b, r], [b, r, g], [b, g, r]],
      readImage l = .ok (⟨some r, some g, some b⟩, []) ∧
      ∀ x y : Int, (imageOf l).At x y = (imageOf [r, g, b]).At x y := by
  have canon : readImage [r, g, b] = .ok (⟨some r, some g, some b⟩, []) := by
    simp [readImage, readImageAux, assembleStep, hr, hg, hb]
  intro l hl
  simp only [List.mem_cons, List.not_mem_nil, or_false] at hl
  have key : readImage l = .ok (⟨some r, some g, some b⟩, []) := by
    rcases hl with rfl | rfl | rfl | rfl | rfl | rfl <;>
      simp [readImage, readImageAux, assembleStep, hr, hg, hb]
  refine ⟨key, fun x y => ?_⟩
  simp [imageOf, key, canon]

/-- C1 witness: concrete red/green/blue frames arriving in G,B,R order
produce the canonical image, whose pixel (0,0) composes the three
channel samples in R,G,B order. -/
theorem readImage_perm_invariant_witness :
    readImage [⟨.green, 1, 1, 1, 8, false, 1, [20]⟩,
        ⟨.blue, 1, 1, 1, 8, true, 1, [30]⟩, ⟨.red, 1, 1, 1, 8, false, 1, [10]⟩] =
      .ok (⟨some ⟨.red, 1, 1, 1, 8, false, 1, [10]⟩,
        some ⟨.green, 1, 1, 1, 8, false, 1, [20]⟩,
        some ⟨.blue, 1, 1, 1, 8, true, 1, [30]⟩⟩, []) ∧
    (imageOf [⟨.green, 1, 1, 1, 8, false, 1, [20]⟩,
        ⟨.blue, 1, 1, 1, 8, true, 1, [30]⟩, ⟨.red, 1, 1, 1, 8, false, 1, [10]⟩]).At 0 0 =
      (imageOf [⟨.red, 1, 1, 1, 8, false, 1, [10]⟩,
        ⟨.green, 1, 1, 1, 8, false, 1, [20]⟩,
        ⟨.blue, 1, 1, 1, 8, true, 1, [30]⟩]).At 0 0 := by
  have h := readImage_perm_invariant
    ⟨.red, 1, 1, 1, 8, false, 1, [10]⟩ ⟨.green, 1, 1, 1, 8, false, 1, [20]⟩
    ⟨.blue, 1, 1, 1, 8, true, 1, [30]⟩ rfl rfl rfl
    [⟨.green, 1, 1, 1, 8, false, 1, [20]⟩, ⟨.blue, 1, 1, 1, 8, true, 1, [30]⟩,
      ⟨.red, 1, 1, 1, 8, false, 1, [10]⟩] (by simp)
  exact ⟨h.1, h.2 0 0⟩

/-- C3: during multi-frame assembly, a frame carrying a role whose slot
is already filled, or carrying a tag outside red/green/blue (once the
image is known to be multi-frame, i.e. from the second frame on), makes
the classification step fail with the protocol-violation error
"sane: unexpected frame type" — no slot is overwritten and assembly does
not continue, as the whole-run corollaries for a duplicated red plane
and for a stray gray frame show. -/
theorem assembleStep_protocol_violation :
    (∀ (i : Nat) (s : Slots) (f : Frame),
        ((f.format = .red ∧ s.f0 ≠ none) ∨ (f.format = .green ∧ s.f1 ≠ none) ∨
          (f.format = .blue ∧ s.f2 ≠ none) ∨
          (1 ≤ i ∧ (f.format = .gray ∨ f.format = .rgb))) →
        assembleStep i s f = .error (.unexpectedFrame f.format)) ∧
    (∀ (f f' : Frame) (rest : List Frame), f.format = .red → f'.format = .red →
        readImage (f :: f' :: rest) = .error (.unexpectedFrame .red)) ∧
    (∀ (f f' : Frame) (rest : List Frame), f.format = .red → f'.format = .gray →
        readImage (f :: f' :: rest) = .error (.unexpectedFrame .gray)) := by
  refine ⟨fun i s f h => ?_, fun f f' rest hf hf' => ?_, fun f f' rest hf hf' => ?_⟩
  · rcases h with ⟨h1, h2⟩ | ⟨h1, h2⟩ | ⟨h1, h2⟩ | ⟨h1, h2⟩
    · simp [assembleStep, h1, h2]
    · simp [assembleStep, h1, h2]
    · simp [assembleStep, h1, h2]
    · have hi : i ≠ 0 := by omega
      rcases h2 with h2 | h2 <;> simp [assembleStep, h1, h2, hi]
  · simp [readImage, readImageAux, assembleStep, hf, hf']
  · simp [readImage, readImageAux, assembleStep, hf, hf']

/-- C3 witness: a duplicated green plane at the third frame fails the
classification step with the protocol-violation error. -/
theorem assembleStep_protocol_violation_witness :
    assembleStep 2
      ⟨some ⟨.red, 1, 1, 1, 8, false, 1, [10]⟩, some ⟨.green, 1, 1, 1, 8, false, 1, [20]⟩,
        none⟩
      ⟨.green, 1, 1, 1, 8, true, 1, [21]⟩ =
      .error (.unexpectedFrame .green) :=
  assembleStep_protocol_violation.1 2
    ⟨some ⟨.red, 1, 1, 1, 8, false, 1, [10]⟩, some ⟨.green, 1, 1, 1, 8, false, 1, [20]⟩,
      none⟩
    ⟨.green, 1, 1, 1, 8, true, 1, [21]⟩ (Or.inr (Or.inl ⟨rfl, by simp⟩))

/-- Written from the spec's packing rule for 16-bit samples: two bytes
per sample, little endian, addressed by stride*y + 2*(channels*x +
channel); to be compared against Frame.At. -/
def specSample16 (f : Frame) (x y ch : Nat) : Nat :=
  let i := f.bytesPerLine * y + 2 * (f.channels * x + ch)
  f.data.getD i 0 + 256 * f.data.getD (i + 1) 0

/-- Written from the spec's packing rule for 1-bit samples: the bit at
position x mod 8 of the byte at stride*y + channels*(x/8) + channel,
inverted for grayscale frames only; to be compared against Frame.At. -/
def specSample1 (f : Frame) (x y ch : Nat) : Nat :=
  let bit := (f.data.getD (f.bytesPerLine * y + f.channels * (x / 8) + ch) 0 >>> (x % 8)) &&& 1
  if f.format = .gray then 1 - bit else bit

/-- C8: the sample decoder implements the per-depth packing rules: at
depth 16 it agrees with the spec's little-endian two-byte rule (so the
byte pair (0x34, 0x12) decodes to 0x1234), and at depth 1 with the
spec's bit-packing rule (so byte 0b10000000 at x = 0 decodes to 1 for a
grayscale frame — inverted — and to 0, uninverted, for a red color-plane
frame in the same encoding). -/
theorem frame_at_packing :
    (∀ (f : Frame) (x y ch : Nat), f.depth = 16 →
        f.At x y ch = specSample16 f x y ch) ∧
    (∀ (f : Frame) (x y ch : Nat), f.depth = 1 →
        f.At x y ch = specSample1 f x y ch) ∧
    Frame.At ⟨.gray, 1, 1, 1, 16, true, 2, [0x34, 0x12]⟩ 0 0 0 = 0x1234 ∧
    Frame.At ⟨.gray, 1, 1, 1, 1, true, 1, [0x80]⟩ 0 0 0 = 1 ∧
    Frame.At ⟨.red, 1, 1, 1, 1, true, 1, [0x80]⟩ 0 0 0 = 0 := by
  refine ⟨fun f x y ch h => ?_, fun f x y ch h => ?_, by decide, by decide, by decide⟩
  · obtain ⟨fmt, w, hg, chs, dep, last, bpl, data⟩ := f
    simp only at h
    subst h
    show data.getD (bpl * y + 2 * (chs * x + ch) + 1) 0 <<< 8 +
        data.getD (bpl * y + 2 * (chs * x + ch)) 0 =
      data.getD (bpl * y + 2 * (chs * x + ch)) 0 +
        256 * data.getD (bpl * y + 2 * (chs * x + ch) + 1) 0
    rw [Nat.shiftLeft_eq]
    ring
  · obtain ⟨fmt, w, hg, chs, dep, last, bpl, data⟩ := f
    simp only at h
    subst h
    show (if fmt = .gray then
        ((data.getD (bpl * y + chs * (x / 8) + ch) 0 >>> (x % 8)) &&& 1) ^^^ 1
      else (data.getD (bpl * y + chs * (x / 8) + ch) 0 >>> (x % 8)) &&& 1) =
      (if fmt = .gray then
        1 - ((data.getD (bpl * y + chs * (x / 8) + ch) 0 >>> (x % 8)) &&& 1)
      else (data.getD (bpl * y + chs * (x / 8) + ch) 0 >>> (x % 8)) &&& 1)
    have hb : (data.getD (bpl * y + chs * (x / 8) + ch) 0 >>> (x % 8)) &&& 1 =
        (data.getD (bpl * y + chs * (x / 8) + ch) 0 >>> (x % 8)) % 2 :=
      Nat.and_one_is_mod _
    rw [hb]
    rcases Nat.mod_two_eq_zero_or_one
        (data.getD (bpl * y + chs * (x / 8) + ch) 0 >>> (x % 8)) with h2 | h2 <;>
      rw [h2] <;> split <;> rfl

/-- C8 witness: the general packing equations instantiated at the
concrete 16-bit frame [0x34, 0x12] and the 1-bit grayscale frame
[0x80]. -/
theorem frame_at_packing_witness :
    Frame.At ⟨.gray, 1, 1, 1, 16, true, 2, [0x34, 0x12]⟩ 0 0 0 =
      specSample16 ⟨.gray, 1, 1, 1, 16, true, 2, [0x34, 0x12]⟩ 0 0 0 ∧
    Frame.At ⟨.gray, 1, 1, 1, 1, true, 1, [0x80]⟩ 0 0 0 =
      specSample1 ⟨.gray, 1, 1, 1, 1, true, 1, [0x80]⟩ 0 0 0 :=
  ⟨frame_at_packing.1 ⟨.gray, 1, 1, 1, 16, true, 2, [0x34, 0x12]⟩ 0 0 0 rfl,
   frame_at_packing.2.1 ⟨.gray, 1, 1, 1, 1, true, 1, [0x80]⟩ 0 0 0 rfl⟩

/-- Helper: a channel-major sample index stays below channels*width. -/
theorem chan_index_lt (channels width x ch : Nat)
    (hx : x < width) (hch : ch < channels) :
    channels * x + ch < channels * width := by
  have h1 : channels * (x + 1) ≤ channels * width := Nat.mul_le_mul_left channels hx
  have h2 : channels * (x + 1) = channels * x + channels := Nat.mul_succ channels x
  omega

/-- C10: Frame.At itself checks no bounds.  Under the height invariant
(height = floor(buffer length / stride)) and a stride wide enough for a
whole line (channels * width samples at the frame's depth), every buffer
index At reads for in-range coordinates is inside the buffer; but
outside those preconditions the index can exceed the buffer (witness:
x past the width), and the defensive zero color for out-of-range
coordinates exists only in Image.At, which guards the bounds before
delegating. -/
theorem frame_at_bounds :
    (∀ (f : Frame) (x y ch : Nat),
        f.height = f.data.length / f.bytesPerLine →
        f.channels * f.width * bytesPerSample f.depth ≤ f.bytesPerLine →
        (f.depth = 1 ∨ f.depth = 8 ∨ f.depth = 16) →
        x < f.width → y < f.height → ch < f.channels →
        ∀ i ∈ f.atIndices x y ch, i < f.data.length) ∧
    (∃ (f : Frame) (x y ch : Nat),
        f.height = f.data.length / f.bytesPerLine ∧
        f.channels * f.width * bytesPerSample f.depth ≤ f.bytesPerLine ∧
        f.width ≤ x ∧ y < f.height ∧ ch < f.channels ∧
        ∃ i ∈ f.atIndices x y ch, f.data.length ≤ i) ∧
    (∀ (m : Image) (x y : Int),
        (x < 0 ∨ ((m.f0.getD nilFrame).width : Int) ≤ x ∨ y < 0 ∨
          ((m.f0.getD nilFrame).height : Int) ≤ y) →
        m.At x y = .rgba 0 0 0 0) := by
  refine ⟨fun f x y ch hh hs hd hx hy hch => ?_, ?_, fun m x y h => ?_⟩
  · have hy1 : y + 1 ≤ f.data.length / f.bytesPerLine := by omega
    have hy2 : (y + 1) * f.bytesPerLine ≤ (f.data.length / f.bytesPerLine) * f.bytesPerLine :=
      Nat.mul_le_mul_right _ hy1
    have hy3 : (f.data.length / f.bytesPerLine) * f.bytesPerLine ≤ f.data.length :=
      Nat.div_mul_le_self _ _
    have hline : f.bytesPerLine * y + f.bytesPerLine ≤ f.data.length := by
      have : (y + 1) * f.bytesPerLine = f.bytesPerLine * y + f.bytesPerLine := by ring
      omega
    intro i hi
    rcases hd with hd | hd | hd
    · rw [Frame.atIndices, hd] at hi
      rw [hd] at hs
      have hs1 : f.channels * f.width ≤ f.bytesPerLine := by
        simpa [bytesPerSample] using hs
      simp only [List.mem_cons, List.not_mem_nil, or_false] at hi
      subst hi
      have hx8 : x / 8 < f.width := Nat.lt_of_le_of_lt (Nat.div_le_self x 8) hx
      have hkey : f.channels * (x / 8) + ch < f.channels * f.width :=
        chan_index_lt _ _ _ _ hx8 hch
      omega
    · rw [Frame.atIndices, hd] at hi
      rw [hd] at hs
      have hs1 : f.channels * f.width ≤ f.bytesPerLine := by
        simpa [bytesPerSample] using hs
      simp only [List.mem_cons, List.not_mem_nil, or_false] at hi
      subst hi
      have hkey : f.channels * x + ch < f.channels * f.width :=
        chan_index_lt _ _ _ _ hx hch
      omega
    · rw [Frame.atIndices, hd] at hi
      rw [hd] at hs
      have hs1 : f.channels * f.width * 2 ≤ f.bytesPerLine := by
        simpa [bytesPerSample] using hs
      simp only [List.mem_cons, List.not_mem_nil, or_false] at hi
      have hkey : f.channels * x + ch < f.channels * f.width :=
        chan_index_lt _ _ _ _ hx hch
      rcases hi with hi | hi <;> subst hi <;> omega
  · refine ⟨⟨.gray, 1, 1, 1, 8, false, 1, [5]⟩, 5, 0, 0, by decide, by decide, by decide,
      by decide, by decide, 5, by decide, by decide⟩
  · unfold Image.At
    rw [if_pos h]

/-- C10 witness: the in-bounds statement applied to a concrete two-pixel
8-bit frame at its second pixel, whose single read index 1 is inside the
two-byte buffer. -/
theorem frame_at_bounds_witness :
    (1 : Nat) < (Frame.mk .gray 2 1 1 8 false 2 [9, 9]).data.length :=
  frame_at_bounds.1 ⟨.gray, 2, 1, 1, 8, false, 2, [9, 9]⟩ 1 0 0
    (by decide) (by decide) (by decide) (by decide) (by decide) (by decide)
    1 (by decide)

/-- C9 counterexample: a single-frame grayscale acquisition produces the
device-action trace [start, start, cancel] (ReadImage's own start, then
the frame's start from ReadFrame, then the single deferred cancel), in
which the two start actions have no intervening cancel — refuting the
claim that there are never two starts without a cancel between them. -/
theorem readImageTr_adjacent_starts :
    (readImageTr none [.ok ⟨.gray, 1, 1, 1, 8, false, 1, [7]⟩]).1 =
      [.start, .start, .cancel] ∧
    ¬ cancelBetweenStarts (readImageTr none [.ok ⟨.gray, 1, 1, 1, 8, false, 1, [7]⟩]).1 := by
  have ht : (readImageTr none [.ok ⟨.gray, 1, 1, 1, 8, false, 1, [7]⟩]).1 =
      [.start, .start, .cancel] := rfl
  refine ⟨ht, fun h => ?_⟩
  rw [ht] at h
  obtain ⟨k, hk1, hk2, _⟩ := h 0 1 (by omega) rfl rfl
  omega

/-- C9 amended: whenever the image-level start succeeds, the acquisition
trace of ReadImage ends with a cancel — on success and on every failure
path alike — so a cancel always separates one image acquisition from the
next acquisition's first start; but frame cycles inside one acquisition
are not each followed by a cancel, and an acquisition whose initial
start fails issues no cancel at all. -/
theorem readImageTr_cancel_ends_acquisition :
    (∀ stream : List (Except Err Frame),
        ((readImageTr none stream).1).getLast? = some .cancel) ∧
    (∀ (e : Err) (stream : List (Except Err Frame)),
        (readImageTr (some e) stream).1 = [.start]) := by
  constructor
  · intro stream
    show (DevAct.start :: ((readImageTrAux 3 0 ⟨none, none, none⟩ stream).1 ++
        [DevAct.cancel])).getLast? = some .cancel
    rw [← List.cons_append, List.getLast?_concat]
  · intro e stream
    rfl

/-- Helper: the fixed-point codec is the identity raw-to-raw: scaling
down by 2^16 over ℚ and scaling back with truncation recovers the raw
word. -/
theorem floatToSane_floatFromSane (w : Int) : floatToSane (floatFromSane w) = w := by
  unfold floatToSane floatFromSane truncQ
  have hne : ((fixedScale : Nat) : ℚ) ≠ 0 := by norm_num [fixedScale]
  rw [div_mul_cancel₀ _ hne]
  split
  · exact Int.ceil_intCast w
  · exact Int.floor_intCast w

/-- Helper: an element-wise decode-then-encode identity turns the
two-step vector codec back into the original word list. -/
theorem map_map_range_getD_eq {α : Type} (ws : List Int) (n : Nat) (h : ws.length = n)
    (g : Int → α) (f : α → Int) (hf : ∀ w ∈ ws, f (g w) = w) :
    ((List.range n).map (fun i => g (ws.getD i 0))).map f = ws := by
  apply List.ext_getElem (by simp [h])
  intro i h1 h2
  simp only [List.getElem_map, List.getElem_range]
  rw [List.getD_eq_getElem ws 0 h2]
  exact hf _ (List.getElem_mem h2)

/-- Helper: setting an index to the value it already holds is the
identity. -/
theorem set_eq_self_of_mem (l : List Nat) (i : Nat) (h : l[i]? = some 0) :
    l.set i 0 = l := by
  induction l generalizing i with
  | nil => rfl
  | cons a t ih =>
    cases i with
    | zero => simp_all
    | succ j => simp_all [List.set]

/-- C6 amended: decode-then-encode is the identity on raw
representations for the four typed kinds, at element counts 1 and
greater: unconditionally for integer and fixed-point word vectors; for
boolean words whenever each raw word is 0 or 1 (the decoder is lenient
and any other non-zero word re-encodes as 1); and for string buffers of
the option's declared byte size whenever the buffer is NUL-terminated
with only NULs after the first one (the decoder drops what follows the
terminator). -/
theorem codec_raw_roundtrip :
    (∀ (ws : List Int) (n : Nat), ws.length = n → 1 ≤ n →
        (∀ w ∈ ws, w = 0 ∨ w = 1) →
        writeArray .bool n (readArray ws .bool n) = some ws) ∧
    (∀ (ws : List Int) (n : Nat), ws.length = n → 1 ≤ n →
        writeArray .int n (readArray ws .int n) = some ws) ∧
    (∀ (ws : List Int) (n : Nat), ws.length = n → 1 ≤ n →
        writeArray .float n (readArray ws .float n) = some ws) ∧
    (∀ (raw : List Nat) (size : Nat), raw.length = size → 1 ≤ size →
        0 ∈ raw → (∀ b ∈ raw.dropWhile (· ≠ 0), b = 0) →
        encodeString size (strFromSaneBytes raw) = raw) := by
  refine ⟨fun ws n hl hn hws => ?_, fun ws n hl hn => ?_, fun ws n hl hn => ?_,
    fun raw size hl hsz h0 hdrop => ?_⟩
  · by_cases h1 : n = 1
    · subst h1
      obtain ⟨w, rfl⟩ := List.length_eq_one.mp hl
      have hw := hws w (by simp)
      simp only [readArray, if_pos rfl, readArrayAt]
      simp only [writeArray, if_pos rfl]
      rcases hw with rfl | rfl <;> simp [boolFromSane, boolToSane]
    · simp only [readArray, if_neg h1, writeArray]
      rw [List.length_map, List.length_range, if_pos rfl]
      refine congrArg some (map_map_range_getD_eq ws n hl _ _ fun w hw => ?_)
      rcases hws w hw with rfl | rfl <;> simp [boolFromSane, boolToSane]
  · by_cases h1 : n = 1
    · subst h1
      obtain ⟨w, rfl⟩ := List.length_eq_one.mp hl
      simp [readArray, readArrayAt, writeArray, intFromSane, intToSane]
    · simp only [readArray, if_neg h1, writeArray]
      rw [List.length_map, List.length_range, if_pos rfl]
      exact congrArg some (map_map_range_getD_eq ws n hl _ _ fun w _ => rfl)
  · by_cases h1 : n = 1
    · subst h1
      obtain ⟨w, rfl⟩ := List.length_eq_one.mp hl
      simp [readArray, readArrayAt, writeArray, floatToSane_floatFromSane]
    · simp only [readArray, if_neg h1, writeArray]
      rw [List.length_map, List.length_range, if_pos rfl]
      exact congrArg some
        (map_map_range_getD_eq ws n hl _ _ fun w _ => floatToSane_floatFromSane w)
  · have hsplit : raw.takeWhile (· ≠ 0) ++ raw.dropWhile (· ≠ 0) = raw :=
      List.takeWhile_append_dropWhile _ raw
    have hlen : (raw.takeWhile (· ≠ 0)).length + (raw.dropWhile (· ≠ 0)).length = size := by
      rw [← List.length_append, hsplit, hl]
    have h0' : (0 : Nat) ∈ raw.takeWhile (· ≠ 0) ∨ (0 : Nat) ∈ raw.dropWhile (· ≠ 0) := by
      rw [← List.mem_append, hsplit]
      exact h0
    have hdlen : 1 ≤ (raw.dropWhile (· ≠ 0)).length := by
      rcases h0' with h | h
      · have := List.mem_takeWhile_imp h
        simp at this
      · exact List.length_pos.2 (List.ne_nil_of_mem h)
    have hk : (raw.takeWhile (· ≠ 0)).length < size := by omega
    have hrep : raw.dropWhile (· ≠ 0) =
        List.replicate (size - (raw.takeWhile (· ≠ 0)).length) 0 :=
      List.eq_replicate_iff.2 ⟨by omega, hdrop⟩
    unfold encodeString strFromSaneBytes
    have htk : (raw.takeWhile (· ≠ 0)).take size = raw.takeWhile (· ≠ 0) :=
      List.take_of_length_le (by omega)
    rw [htk]
    have hb : raw.takeWhile (· ≠ 0) ++
        List.replicate (size - (raw.takeWhile (· ≠ 0)).length) 0 = raw := by
      rw [← hrep, hsplit]
    rw [hb]
    apply set_eq_self_of_mem
    rw [← hb]
    rw [List.getElem?_append_right (by omega)]
    simp only [List.getElem?_replicate]
    rw [if_pos (by omega)]

/-- C6 counterexample: encode(decode(raw)) = raw fails as stated: the
boolean raw word 2 decodes to true and re-encodes as 1, and the string
buffer [65, 0, 66] (text after the NUL terminator) decodes to "A" and
re-encodes as [65, 0, 0]. -/
theorem codec_raw_roundtrip_fails :
    writeArray .bool 1 (readArray [2] .bool 1) = some [1] ∧
    ((some [1] : Option (List Int)) ≠ some [2]) ∧
    encodeString 3 (strFromSaneBytes [65, 0, 66]) = [65, 0, 0] ∧
    ([65, 0, 0] : List Nat) ≠ [65, 0, 66] := by
  refine ⟨rfl, by decide, rfl, by decide⟩

/-- C6 witness: the amended round-trip at concrete raws — a two-word
boolean vector of bits, a two-word integer vector, a fixed-point scalar,
and a NUL-terminated string buffer. -/
theorem codec_raw_roundtrip_witness :
    writeArray .bool 2 (readArray [1, 0] .bool 2) = some [1, 0] ∧
    writeArray .int 2 (readArray [7, -3] .int 2) = some [7, -3] ∧
    writeArray .float 1 (readArray [655360] .float 1) = some [655360] ∧
    encodeString 4 (strFromSaneBytes [104, 105, 0, 0]) = [104, 105, 0, 0] :=
  ⟨codec_raw_roundtrip.1 [1, 0] 2 rfl (by omega) (by decide),
   codec_raw_roundtrip.2.1 [7, -3] 2 rfl (by omega),
   codec_raw_roundtrip.2.2.1 [655360] 1 rfl (by omega),
   codec_raw_roundtrip.2.2.2 [104, 105, 0, 0] 4 rfl (by omega) (by decide) (by decide)⟩

/-- Helper: a non-auto value that does not match a boolean option's
element count is rejected by writeArray. -/
theorem writeArray_bool_eq_none (l : Nat) (v : Value) (hv : v ≠ .auto)
    (h : ¬ valueKindMatches .tBool l v) : writeArray .bool l v = none := by
  rcases v with x | x | x | x | x | x | x | _
  · simp only [valueKindMatches] at h
    unfold writeArray
    rw [if_neg h]
  · unfold writeArray
    split <;> rfl
  · unfold writeArray
    split <;> rfl
  · unfold writeArray
    split <;> rfl
  · simp only [valueKindMatches] at h
    by_cases hl1 : l = 1
    · simp [writeArray, hl1]
    · have hxl : x.length ≠ l := by tauto
      simp [writeArray, hl1, hxl]
  · unfold writeArray
    split <;> rfl
  · unfold writeArray
    split <;> rfl
  · exact absurd rfl hv

/-- Helper: a non-auto value that does not match an integer option's
element count is rejected by writeArray. -/
theorem writeArray_int_eq_none (l : Nat) (v : Value) (hv : v ≠ .auto)
    (h : ¬ valueKindMatches .tInt l v) : writeArray .int l v = none := by
  rcases v with x | x | x | x | x | x | x | _
  · unfold writeArray
    split <;> rfl
  · simp only [valueKindMatches] at h
    unfold writeArray
    rw [if_neg h]
  · unfold writeArray
    split <;> rfl
  · unfold writeArray
    split <;> rfl
  · unfold writeArray
    split <;> rfl
  · simp only [valueKindMatches] at h
    by_cases hl1 : l = 1
    · simp [writeArray, hl1]
    · have hxl : x.length ≠ l := by tauto
      simp [writeArray, hl1, hxl]
  · unfold writeArray
    split <;> rfl
  · exact absurd rfl hv

/-- Helper: a non-auto value that does not match a fixed-point option's
element count is rejected by writeArray. -/
theorem writeArray_float_eq_none (l : Nat) (v : Value) (hv : v ≠ .auto)
    (h : ¬ valueKindMatches .tFixed l v) : writeArray .float l v = none := by
  rcases v with x | x | x | x | x | x | x | _
  · unfold writeArray
    split <;> rfl
  · unfold writeArray
    split <;> rfl
  · simp only [valueKindMatches] at h
    unfold writeArray
    rw [if_neg h]
  · unfold writeArray
    split <;> rfl
  · unfold writeArray
    split <;> rfl
  · unfold writeArray
    split <;> rfl
  · simp only [valueKindMatches] at h
    by_cases hl1 : l = 1
    · simp [writeArray, hl1]
    · have hxl : x.length ≠ l := by tauto
      simp [writeArray, hl1, hxl]
  · exact absurd rfl hv

/-- C5 amended: a type or vector-length mismatch is a local, synchronous
failure of SetOption: encoding fails with the InvalidArgument-class
"option ... expects ..." error; with a warm option cache SetOption then
returns that error with no transport call of any kind and the cache
unchanged; with a cold cache the only transport traffic is the
descriptor enumeration that the name lookup itself performs (which
populates the cache) — a device control call is never issued either
way. -/
theorem setOption_mismatch_is_local :
    (∀ (o : SOption) (v : Value), mismatch o v →
        ∃ w, fillOpt o v = .error (.expects o.name w)) ∧
    (∀ (c : Conn) (opts : List SOption) (nm : String) (o : SOption) (v : Value) (e : Err),
        c.options = some opts → findOpt opts nm = some o →
        v ≠ .auto → fillOpt o v = .error e →
        c.SetOption nm v = (.error e, c, [])) ∧
    (∀ (c : Conn) (nm : String) (o : SOption) (v : Value) (e : Err),
        c.options = none → findOpt (fetchOptions c.dev.descrs) nm = some o →
        v ≠ .auto → fillOpt o v = .error e →
        c.SetOption nm v = (.error e,
          { c with options := some (fetchOptions c.dev.descrs) },
          descrTrace c.dev.descrs)) := by
  refine ⟨fun o v ⟨ht, hv, hnm⟩ => ?_, fun c opts nm o v e hc hf hv he => ?_,
    fun c nm o v e hc hf hv he => ?_⟩
  · rcases ht with ht | ht | ht | ht
    · refine ⟨(if o.size / wordSize > 1 then "[]" else "") ++ "bool", ?_⟩
      rw [ht] at hnm
      simp [fillOpt, ht, writeArray_bool_eq_none _ v hv hnm]
    · refine ⟨(if o.size / wordSize > 1 then "[]" else "") ++ "int", ?_⟩
      rw [ht] at hnm
      simp [fillOpt, ht, writeArray_int_eq_none _ v hv hnm]
    · refine ⟨(if o.size / wordSize > 1 then "[]" else "") ++ "float64", ?_⟩
      rw [ht] at hnm
      simp [fillOpt, ht, writeArray_float_eq_none _ v hv hnm]
    · refine ⟨"string", ?_⟩
      rw [ht] at hnm
      rcases v with x | x | x | x | x | x | x | _ <;>
        first
          | exact absurd rfl hv
          | exact absurd trivial hnm
          | simp [fillOpt, ht]
  · rcases v with x | x | x | x | x | x | x | _ <;>
      first
        | exact absurd rfl hv
        | simp [Conn.SetOption, Conn.Options, hc, hf, he]
  · rcases v with x | x | x | x | x | x | x | _ <;>
      first
        | exact absurd rfl hv
        | simp [Conn.SetOption, Conn.Options, hc, hf, he]

/-- C5 counterexample: with a cold option cache, SetOption on an integer
option with a boolean value does fail locally, but the lookup reaches
the device transport (two descriptor queries) and changes the cached
option state from nil to a populated list — contradicting the claim
that the transport is never reached and the cache is unchanged. -/
theorem setOption_cold_cache_reaches_transport :
    (Conn.SetOption ⟨⟨[⟨"resolution", "Resolution", .tInt, 4⟩],
        fun _ _ => (.good, 0), fun _ => (.good, 0)⟩, none⟩ "resolution" (.b true)).1 =
      .error (.expects "resolution" "int") ∧
    (Conn.SetOption ⟨⟨[⟨"resolution", "Resolution", .tInt, 4⟩],
        fun _ _ => (.good, 0), fun _ => (.good, 0)⟩, none⟩ "resolution" (.b true)).2.2 =
      [.getDescriptor 1, .getDescriptor 2] ∧
    ([.getDescriptor 1, .getDescriptor 2] : List TCall) ≠ [] ∧
    ((Conn.SetOption ⟨⟨[⟨"resolution", "Resolution", .tInt, 4⟩],
        fun _ _ => (.good, 0), fun _ => (.good, 0)⟩, none⟩ "resolution" (.b true)).2.1).options =
      some [⟨"resolution", "", .tInt, 1, 4, 1⟩] ∧
    (some [⟨"resolution", "", .tInt, 1, 4, 1⟩] : Option (List SOption)) ≠ none := by
  refine ⟨rfl, rfl, by decide, rfl, by decide⟩

/-- C5 witness: the warm-cache statement instantiated at a concrete
connection whose cache holds the single integer option "resolution",
with a boolean argument: the error is returned with no transport calls
and an unchanged connection. -/
theorem setOption_mismatch_is_local_witness :
    Conn.SetOption ⟨⟨[⟨"resolution", "Resolution", .tInt, 4⟩],
        fun _ _ => (.good, 0), fun _ => (.good, 0)⟩,
        some [⟨"resolution", "", .tInt, 1, 4, 1⟩]⟩ "resolution" (.b true) =
      (.error (.expects "resolution" "int"),
        ⟨⟨[⟨"resolution", "Resolution", .tInt, 4⟩],
          fun _ _ => (.good, 0), fun _ => (.good, 0)⟩,
          some [⟨"resolution", "", .tInt, 1, 4, 1⟩]⟩, []) :=
  setOption_mismatch_is_local.2.1
    ⟨⟨[⟨"resolution", "Resolution", .tInt, 4⟩],
      fun _ _ => (.good, 0), fun _ => (.good, 0)⟩,
      some [⟨"resolution", "", .tInt, 1, 4, 1⟩]⟩
    [⟨"resolution", "", .tInt, 1, 4, 1⟩] "resolution"
    ⟨"resolution", "", .tInt, 1, 4, 1⟩ (.b true)
    (.expects "resolution" "int") rfl rfl (by decide) rfl

/-- Helper: inverting the post-control-call tail of SetOption on a
successful outcome: the reload-options info bit is bit 2 of the info
word, the cache is cleared exactly when that bit is set, and the trace
is passed through. -/
theorem finishSet_ok (c : Conn) (tr : List TCall) (st : Status) (iw : Nat)
    (info : Info) (c' : Conn) (tr' : List TCall)
    (h : finishSet c tr st iw = (.ok info, c', tr')) :
    info.reloadOpts = (iw &&& 2 != 0) ∧
    c'.options = (if iw &&& 2 != 0 then none else c.options) ∧ tr' = tr := by
  unfold finishSet at h
  split at h
  · simp only [Prod.mk.injEq, Except.ok.injEq] at h
    obtain ⟨h1, h2, h3⟩ := h
    subst h1
    subst h2
    subst h3
    refine ⟨rfl, ?_, rfl⟩
    split <;> rfl
  · simp at h

/-- Helper: packaging the cache conclusion of a successful SetOption. -/
theorem set_cache_conclusion (c c' : Conn) (opts : List SOption) (info : Info) (b : Bool)
    (hc : c.options = some opts) (h1 : info.reloadOpts = b)
    (h2 : c'.options = if b then none else c.options) :
    (info.reloadOpts = true → c'.options = none) ∧
    (info.reloadOpts = false → c'.options = some opts) := by
  subst h1
  rw [hc] at h2
  cases hb : info.reloadOpts <;> rw [hb] at h2 <;> simp_all

/-- C7: a successful SetOption that reports the reload-options side
effect clears the cached option list, and one that does not leaves the
cached list exactly as it was; a list call on an invalidated (empty)
cache re-queries every descriptor from the device (the full descriptor
enumeration appears in its transport trace) and returns the freshly
fetched sequence, while a list call on a warm cache returns the cached
sequence with no transport traffic. -/
theorem setOption_reload_invalidates_cache :
    (∀ (c : Conn) (opts : List SOption) (nm : String) (v : Value)
        (info : Info) (c' : Conn) (tr : List TCall),
        c.options = some opts →
        c.SetOption nm v = (.ok info, c', tr) →
        (info.reloadOpts = true → c'.options = none) ∧
        (info.reloadOpts = false → c'.options = some opts)) ∧
    (∀ c : Conn, c.options = none →
        c.Options = (fetchOptions c.dev.descrs,
          { c with options := some (fetchOptions c.dev.descrs) },
          descrTrace c.dev.descrs)) ∧
    (∀ (c : Conn) (opts : List SOption), c.options = some opts →
        c.Options = (opts, c, [])) := by
  refine ⟨fun c opts nm v info c' tr hc h => ?_, fun c hc => ?_, fun c opts hc => ?_⟩
  · unfold Conn.SetOption at h
    simp only [Conn.Options, hc] at h
    split at h
    · simp at h
    · split at h
      · obtain ⟨h1, h2, _⟩ := finishSet_ok _ _ _ _ _ _ _ h
        exact set_cache_conclusion c c' opts info _ hc h1 h2
      · split at h
        · simp at h
        · obtain ⟨h1, h2, _⟩ := finishSet_ok _ _ _ _ _ _ _ h
          exact set_cache_conclusion c c' opts info _ hc h1 h2
  · unfold Conn.Options
    rw [hc]
  · unfold Conn.Options
    rw [hc]

/-- C7 witness: on a connection whose warm cache holds one option, a
successful set whose device reports info word 2 (reload-options) clears
the cache, and the subsequent list call re-enumerates both descriptor
indices; the cold- and warm-cache list statements are instantiated on
the resulting connections. -/
theorem setOption_reload_invalidates_cache_witness :
    ((Conn.SetOption ⟨⟨[⟨"mode", "Mode", .tString, 8⟩],
        fun _ _ => (.good, 2), fun _ => (.good, 2)⟩,
        some [⟨"mode", "", .tString, 1, 8, 1⟩]⟩ "mode" (.s "Color")).2.1).options = none ∧
    Conn.Options ⟨⟨[⟨"mode", "Mode", .tString, 8⟩],
        fun _ _ => (.good, 2), fun _ => (.good, 2)⟩, none⟩ =
      ([⟨"mode", "", .tString, 1, 8, 1⟩],
        ⟨⟨[⟨"mode", "Mode", .tString, 8⟩],
          fun _ _ => (.good, 2), fun _ => (.good, 2)⟩,
          some [⟨"mode", "", .tString, 1, 8, 1⟩]⟩,
        [.getDescriptor 1, .getDescriptor 2]) ∧
    Conn.Options ⟨⟨[⟨"mode", "Mode", .tString, 8⟩],
        fun _ _ => (.good, 2), fun _ => (.good, 2)⟩,
        some [⟨"mode", "", .tString, 1, 8, 1⟩]⟩ =
      ([⟨"mode", "", .tString, 1, 8, 1⟩],
        ⟨⟨[⟨"mode", "Mode", .tString, 8⟩],
          fun _ _ => (.good, 2), fun _ => (.good, 2)⟩,
          some [⟨"mode", "", .tString, 1, 8, 1⟩]⟩, []) := by
  refine ⟨?_, ?_, ?_⟩
  · exact (setOption_reload_invalidates_cache.1
      ⟨⟨[⟨"mode", "Mode", .tString, 8⟩], fun _ _ => (.good, 2), fun _ => (.good, 2)⟩,
        some [⟨"mode", "", .tString, 1, 8, 1⟩]⟩
      [⟨"mode", "", .tString, 1, 8, 1⟩] "mode" (.s "Color")
      ⟨false, true, false⟩ _ _ rfl rfl).1 rfl
  · exact setOption_reload_invalidates_cache.2.1
      ⟨⟨[⟨"mode", "Mode", .tString, 8⟩], fun _ _ => (.good, 2), fun _ => (.good, 2)⟩,
        none⟩ rfl
  · exact setOption_reload_invalidates_cache.2.2
      ⟨⟨[⟨"mode", "Mode", .tString, 8⟩], fun _ _ => (.good, 2), fun _ => (.good, 2)⟩,
        some [⟨"mode", "", .tString, 1, 8, 1⟩]⟩
      [⟨"mode", "", .tString, 1, 8, 1⟩] rfl

end Sane
